import Mathlib

/-!
Verification development for the kemono-dl content-retrieval client.

The Go source (main.go / downloader.go / http_client.go) is shallowly
embedded below.  Network and filesystem effects are made explicit:

* an HTTP endpoint is modelled as an oracle mapping the attempt number
  (and, for downloads, the request URL) to the response observed there;
* durations are nanosecond counts (`time.Second = 1000000000`);
* the set of paths existing on disk is a `List String`;
* every retry loop of the source is compiled to structural recursion on
  the remaining loop iterations, keeping the source's own loop guards.

Definitions mirror the Go functions and keep their names.
-/

/-- `time.Second` in nanoseconds. -/
def second : Nat := 1000000000

/-- `initialBackoff := time.Second` (fetchPostsPage, fetchDetailedPost,
downloadFileFromPath all use this constant). -/
def initialBackoff : Nat := second

/-- `retryDelay := 2 * time.Second` in fetchPostsWithPagination. -/
def pageRetryDelay : Nat := 2 * second

/-- One attachment entry of a page-listing post (struct `Post.Attachments`). -/
structure Attachment where
  name : String
  path : String
deriving DecidableEq, Repr

/-- The page-listing entry (struct `Post` in main.go; the empty `file`
struct carries no data and is omitted). -/
structure Post where
  id : String
  user : String
  service : String
  title : String
  substring : String
  published : String
  attachments : List Attachment
deriving DecidableEq, Repr

/-- Outcome of reading and decoding the body of a 200 response in
`fetchPostsPage` (`io.ReadAll` then `json.Unmarshal`). -/
inductive BodyOutcome where
  | readErr
  | parseErr
  | posts (ps : List Post)
deriving DecidableEq, Repr

/-- The response the posts API produces for one attempt: either
`client.Do` fails at the transport level, or an HTTP status arrives
together with what decoding its body would yield. -/
inductive ApiResp where
  | transport
  | status (code : Nat) (body : BodyOutcome)
deriving DecidableEq, Repr

/-- HTTP status code of a response, if one arrived. -/
def ApiResp.code : ApiResp → Option Nat
  | .transport => none
  | .status c _ => some c

/-- The error classes `fetchPostsPage` can return. `exhausted` is the
`return` after the loop, which is unreachable from attempt 1. -/
inductive FetchErr where
  | transport
  | rateLimited
  | badStatus (code : Nat)
  | readBody
  | parseJson
  | exhausted
deriving DecidableEq, Repr

deriving instance DecidableEq for Except

/-- Observable outcome of one `fetchPostsPage` call: the returned value,
the backoff sleeps performed (nanoseconds, in order), and the attempt
numbers at which an HTTP request was actually issued. -/
structure FetchOut where
  result : Except FetchErr (List Post)
  sleeps : List Nat
  requests : List Nat
deriving DecidableEq, Repr

/-- `maxRetries := 5` in fetchPostsPage / downloadFileFromPath. -/
def pageMaxRetries : Nat := 5

/-- The `for attempt := 1; attempt <= maxRetries; attempt++` loop of
`fetchPostsPage`.  The first argument of the recursion is the number of
loop iterations still permitted (`maxRetries + 1 - attempt`); the
429-branch guard `attempt < maxRetries` is kept verbatim from the
source, so the fuel-0 case (the `return` after the loop) is never
reached from the initial call. -/
def fetchPostsPageGo (oracle : Nat → ApiResp) : Nat → Nat → FetchOut
  | 0, _ => ⟨.error .exhausted, [], []⟩
  | left + 1, attempt =>
    match oracle attempt with
    | .transport => ⟨.error .transport, [], [attempt]⟩
    | .status code body =>
      if code = 429 then
        if attempt < pageMaxRetries then
          let rest := fetchPostsPageGo oracle left (attempt + 1)
          ⟨rest.result, 2 ^ (attempt - 1) * initialBackoff :: rest.sleeps,
            attempt :: rest.requests⟩
        else ⟨.error .rateLimited, [], [attempt]⟩
      else if code ≠ 200 then ⟨.error (.badStatus code), [], [attempt]⟩
      else
        match body with
        | .readErr => ⟨.error .readBody, [], [attempt]⟩
        | .parseErr => ⟨.error .parseJson, [], [attempt]⟩
        | .posts ps => ⟨.ok ps, [], [attempt]⟩

/-- `fetchPostsPage` for a fixed URL, as a function of the per-attempt
response oracle. -/
def fetchPostsPage (oracle : Nat → ApiResp) : FetchOut :=
  fetchPostsPageGo oracle pageMaxRetries 1

/-- Oracle for the C1 witness: 429 on the first two attempts, 200 after. -/
def c1oracle : Nat → ApiResp := fun n =>
  if n ≤ 2 then .status 429 .readErr else .status 200 (.posts [])

/-- Oracle for the C1 witness: 429 on every attempt. -/
def c1oracle429 : Nat → ApiResp := fun _ => .status 429 .readErr

/-- `pageSize := 50` in fetchPostsWithPagination. -/
def pageSize : Nat := 50

/-- `maxRetries := 3` in fetchPostsWithPagination (outer per-page loop). -/
def walkMaxRetries : Nat := 3

/-- Value of `posts, err` after the inner per-page retry loop of
`fetchPostsWithPagination`, together with the number of `fetchPostsPage`
invocations made for this page and the fixed inter-attempt delays slept. -/
structure PageTry where
  result : Except FetchErr (List Post)
  attemptsMade : Nat
  sleeps : List Nat
deriving DecidableEq, Repr

/-- The `for attempt := 1; attempt <= maxRetries; attempt++` inner loop
of `fetchPostsWithPagination`.  `fetch a` is the outcome that
`fetchPostsPage` produces on the `a`-th outer attempt for this page's
URL.  Fuel discipline as in `fetchPostsPageGo`: the source's guard
`attempt < maxRetries` is kept verbatim and the fuel-0 case is
unreachable from the initial call. -/
def retryPageGo (fetch : Nat → Except FetchErr (List Post)) :
    Nat → Nat → PageTry
  | 0, _ => ⟨.error .exhausted, 0, []⟩
  | left + 1, attempt =>
    match fetch attempt with
    | .ok ps => ⟨.ok ps, 1, []⟩
    | .error e =>
      if attempt < walkMaxRetries then
        let r := retryPageGo fetch left (attempt + 1)
        ⟨r.result, r.attemptsMade + 1, pageRetryDelay :: r.sleeps⟩
      else ⟨.error e, 1, []⟩

/-- The inner retry loop started at attempt 1. -/
def retryPage (fetch : Nat → Except FetchErr (List Post)) : PageTry :=
  retryPageGo fetch walkMaxRetries 1

/-- Errors of `fetchPostsWithPagination`.  `noFuel` stands for
divergence of the unbounded Go `for` loop; it is never produced when the
supplied fuel exceeds the number of pages the oracle serves. -/
inductive WalkErr where
  | pageFailed (pageNumber : Nat) (e : FetchErr)
  | noFuel
deriving DecidableEq, Repr

/-- Observable outcome of `fetchPostsWithPagination`: the returned
value, the page offsets requested in order, and the number of per-page
fetch invocations for each requested page. -/
structure WalkOut where
  result : Except WalkErr (List Post)
  offsets : List Nat
  pageAttempts : List Nat
deriving DecidableEq, Repr

/-- The unbounded `for` loop of `fetchPostsWithPagination`, with fuel.
Arguments after the fuel are `offset`, `pageNumber`, `allPosts`, exactly
the loop state of the source. -/
def walkGo (fetch : Nat → Nat → Except FetchErr (List Post)) :
    Nat → Nat → Nat → List Post → WalkOut
  | 0, _, _, _ => ⟨.error .noFuel, [], []⟩
  | fuel + 1, offset, pageNumber, allPosts =>
    let t := retryPage (fetch offset)
    match t.result with
    | .error e => ⟨.error (.pageFailed pageNumber e), [offset], [t.attemptsMade]⟩
    | .ok posts =>
      if posts.length = 0 then ⟨.ok allPosts, [offset], [t.attemptsMade]⟩
      else if posts.length < pageSize then
        ⟨.ok (allPosts ++ posts), [offset], [t.attemptsMade]⟩
      else
        let r := walkGo fetch fuel (offset + pageSize) (pageNumber + 1)
          (allPosts ++ posts)
        ⟨r.result, offset :: r.offsets, t.attemptsMade :: r.pageAttempts⟩

/-- `fetchPostsWithPagination`: offset starts at 0, pageNumber at 1,
`allPosts` empty. -/
def fetchPostsWithPagination (fetch : Nat → Nat → Except FetchErr (List Post))
    (fuel : Nat) : WalkOut :=
  walkGo fetch fuel 0 1 []

/-- The page list carried by a `PageTry` (empty on failure). -/
def pageItems (t : PageTry) : List Post :=
  match t.result with
  | .ok ps => ps
  | .error _ => []

/-- Whether the per-page retry loop ended in success. -/
def pageOk (t : PageTry) : Bool :=
  match t.result with
  | .ok _ => true
  | .error _ => false

/-- The error carried by a failed `PageTry`. -/
def pageErr (t : PageTry) : FetchErr :=
  match t.result with
  | .error e => e
  | .ok _ => .exhausted

/-- A sample page-listing entry for the simulated APIs. -/
def samplePost : Post := ⟨"p", "u", "s", "t", "", "", []⟩

/-- Simulated API serving full 50-item pages at offsets 0, 50, 100 and
an empty page at 150. -/
def api150 : Nat → List Post := fun off =>
  if off < 150 then List.replicate 50 samplePost else []

/-- Simulated API whose last page (offset 50) has only 23 items. -/
def api73 : Nat → List Post := fun off =>
  if off = 0 then List.replicate 50 samplePost
  else if off = 50 then List.replicate 23 samplePost
  else []

/-- Outcome of the streaming phase of one 200-status download attempt:
`os.Create` fails, `io.Copy` fails midway, or the full body is written. -/
inductive StreamOutcome where
  | createErr
  | copyErr
  | okBytes
deriving DecidableEq, Repr

/-- Response of the file host for one download attempt. -/
inductive DlResp where
  | transport
  | status (code : Nat) (stream : StreamOutcome)
deriving DecidableEq, Repr

/-- HTTP status code of a download response, if one arrived. -/
def DlResp.code : DlResp → Option Nat
  | .transport => none
  | .status c _ => some c

/-- The error classes `downloadFileFromPath` can return; `exhausted` is
the `return` after the loop, unreachable from attempt 1. -/
inductive DlErr where
  | transport
  | rateLimited
  | badStatus (code : Nat)
  | createFailed
  | writeFailed
  | exhausted
deriving DecidableEq, Repr

/-- Observable outcome of one `downloadFileFromPath` call: the returned
value, the paths existing on disk afterwards, the number of HTTP GETs
issued, and the backoff sleeps performed. -/
structure DlOut where
  result : Except DlErr Unit
  files : List String
  requests : Nat
  sleeps : List Nat
deriving DecidableEq, Repr

/-- `maxRetries := 5` in downloadFileFromPath. -/
def dlMaxRetries : Nat := 5

/-- `filepath.Join` on two already-clean components, as used throughout
the source: `Join(d, "") = d`, `Join("", f) = f`, else `d + "/" + f`. -/
def pathJoin (d f : String) : String :=
  if d = "" then f else if f = "" then d else d ++ "/" ++ f

/-- The retry loop of `downloadFileFromPath` (five attempts, the same
429 backoff as the data fetchers).  On a 200 response the body is
streamed to `outputPath`: a copy failure removes the partially written
file again (`os.Remove`), leaving the set of existing paths unchanged;
only a completed stream adds `outputPath`.  Fuel discipline as in
`fetchPostsPageGo`. -/
def downloadGo (net : Nat → DlResp) (files : List String) (outputPath : String) :
    Nat → Nat → DlOut
  | 0, _ => ⟨.error .exhausted, files, 0, []⟩
  | left + 1, attempt =>
    match net attempt with
    | .transport => ⟨.error .transport, files, 1, []⟩
    | .status code stream =>
      if code = 429 then
        if attempt < dlMaxRetries then
          let r := downloadGo net files outputPath left (attempt + 1)
          ⟨r.result, r.files, r.requests + 1,
            2 ^ (attempt - 1) * initialBackoff :: r.sleeps⟩
        else ⟨.error .rateLimited, files, 1, []⟩
      else if code ≠ 200 then ⟨.error (.badStatus code), files, 1, []⟩
      else
        match stream with
        | .createErr => ⟨.error .createFailed, files, 1, []⟩
        | .copyErr => ⟨.error .writeFailed, files, 1, []⟩
        | .okBytes => ⟨.ok (), outputPath :: files, 1, []⟩

/-- `downloadFileFromPath`: return success without any request when the
destination file already exists (`os.Stat` succeeds), otherwise run the
download loop.  The network oracle is indexed by the full download URL
`baseURL + filePath` and the attempt number. -/
def downloadFileFromPath (net : String → Nat → DlResp) (files : List String)
    (destDir fileName filePath baseURL : String) : DlOut :=
  let outputPath := pathJoin destDir fileName
  if outputPath ∈ files then ⟨.ok (), files, 0, []⟩
  else downloadGo (net (baseURL ++ filePath)) files outputPath dlMaxRetries 1

/-- Dynamically-typed JSON value (Go `interface{}` after
`json.Unmarshal`); an object is its key/value list. -/
inductive JVal where
  | str (s : String)
  | num (n : Int)
  | jbool (b : Bool)
  | null
  | arr (xs : List JVal)
  | obj (fields : List (String × JVal))

/-- Go map lookup `m[k]` on a decoded JSON object. -/
def jGet (fields : List (String × JVal)) (k : String) : Option JVal :=
  (fields.find? fun kv => kv.1 = k).map fun kv => kv.2

/-- Go type assertion `v.(string)`: succeeds exactly on strings. -/
def asString : JVal → Option String
  | .str s => some s
  | _ => none

/-- Go type assertion `v.(map[string]interface\x7b\x7d)`. -/
def asObj : JVal → Option (List (String × JVal))
  | .obj f => some f
  | _ => none

/-- Go type assertion `v.([]interface\x7b\x7d)`. -/
def asArr : JVal → Option (List JVal)
  | .arr xs => some xs
  | _ => none

/-- `DetailedPostResponse`; only the open `post` map is consumed by the
download helpers. -/
structure DetailedPostResponse where
  post : List (String × JVal)
  attachments : List JVal
  previews : List JVal
  videos : List JVal
  props : List (String × JVal)

/-- Observable outcome of `downloadPostFile` / `downloadPostAttachments`:
returned value, resulting disk paths, HTTP GETs issued. -/
structure PostDlOut where
  result : Except DlErr Unit
  files : List String
  requests : Nat

/-- `downloadPostFile` (main.go): extract `post["file"]`, treat any
missing or malformed shape as a no-op, reject an empty file name before
any download is attempted, otherwise call `downloadFileFromPath`. -/
def downloadPostFile (net : String → Nat → DlResp) (files : List String)
    (baseDir service userID postID : String)
    (detailedPost : DetailedPostResponse) (baseURL : String) : PostDlOut :=
  match jGet detailedPost.post "file" with
  | none => ⟨.ok (), files, 0⟩
  | some postFile =>
    match asObj postFile with
    | none => ⟨.ok (), files, 0⟩
    | some fileMap =>
      match (jGet fileMap "name").bind asString,
          (jGet fileMap "path").bind asString with
      | some name, some path =>
        if name = "" then ⟨.ok (), files, 0⟩
        else
          let postDir := pathJoin (pathJoin (pathJoin baseDir service) userID) postID
          let d := downloadFileFromPath net files postDir name path baseURL
          match d.result with
          | .error e => ⟨.error e, d.files, d.requests⟩
          | .ok _ => ⟨.ok (), d.files, d.requests⟩
      | _, _ => ⟨.ok (), files, 0⟩

/-- The per-attachment loop of `downloadPostAttachments`: malformed
entries and failed downloads are logged and the loop continues with the
next entry. -/
def downloadAttachmentsLoop (net : String → Nat → DlResp)
    (postDir baseURL : String) : List String → List JVal → List String × Nat
  | files, [] => (files, 0)
  | files, a :: rest =>
    match asObj a with
    | none => downloadAttachmentsLoop net postDir baseURL files rest
    | some m =>
      match (jGet m "name").bind asString, (jGet m "path").bind asString with
      | some name, some path =>
        let d := downloadFileFromPath net files postDir name path baseURL
        let r := downloadAttachmentsLoop net postDir baseURL d.files rest
        (r.1, d.requests + r.2)
      | _, _ => downloadAttachmentsLoop net postDir baseURL files rest

/-- `downloadPostAttachments` (main.go): extract `post["attachments"]`,
treat missing/malformed/empty shapes as a no-op, otherwise download each
well-formed entry; always returns nil. -/
def downloadPostAttachments (net : String → Nat → DlResp) (files : List String)
    (baseDir service userID postID : String)
    (detailedPost : DetailedPostResponse) (baseURL : String) : PostDlOut :=
  match jGet detailedPost.post "attachments" with
  | none => ⟨.ok (), files, 0⟩
  | some v =>
    match asArr v with
    | none => ⟨.ok (), files, 0⟩
    | some attachmentsList =>
      if attachmentsList.length = 0 then ⟨.ok (), files, 0⟩
      else
        let postDir := pathJoin (pathJoin (pathJoin baseDir service) userID) postID
        let r := downloadAttachmentsLoop net postDir baseURL files attachmentsList
        ⟨.ok (), r.1, r.2⟩

/-- `AppendFailedDownload` (downloader.go) on the decoded contents of
`failed.json` (a read or parse failure leaves `failedList` empty, since
the unmarshal error is discarded): a URL already present is not
re-appended and the file is left unchanged; a new URL is appended at the
end and written back. -/
def AppendFailedDownload (failedList : List String) (url : String) : List String :=
  if url ∈ failedList then failedList else failedList ++ [url]

/-- One `os.ReadDir` entry as consumed by `shouldUpdateProfile`. -/
structure DirEntry where
  name : String
  isDir : Bool
deriving DecidableEq, Repr

/-- `ProfileResponse` (main.go). -/
structure ProfileResponse where
  id : String
  name : String
  service : String
  indexed : String
  updated : String
  publicId : String
  relationId : Option String
  postCount : Int
  dmCount : Int
  shareCount : Int
  chatCount : Int
deriving DecidableEq, Repr

/-- Result of `os.Stat` on the profile directory: it exists, it does not
exist (`os.ErrNotExist`), or the stat itself fails otherwise. -/
inductive StatRes where
  | found
  | notExist
  | statFail
deriving DecidableEq, Repr

/-- Filesystem view consumed by `shouldUpdateProfile`. -/
structure GateFS where
  profileStat : StatRes
  readDirRes : Except Unit (List DirEntry)
  readFileRes : String → Except Unit String
  unmarshalProfile : String → Except Unit ProfileResponse

/-- The error exits of `shouldUpdateProfile` (each is a `return false,
err` in the source; the caller `main` aborts the run on any of them). -/
inductive GateErr where
  | statFailed
  | readDirFailed
  | readFileFailed
  | unmarshalFailed
deriving DecidableEq, Repr

/-- The `for _, file := range files` scan: the first non-directory entry
whose name ends in `.json`, joined to the directory; `profileFile` stays
empty when none matches. -/
def findProfileFile (profileDir : String) (files : List DirEntry) : String :=
  match files.find?
      (fun f => !f.isDir && List.isSuffixOf ".json".toList f.name.toList) with
  | some f => pathJoin profileDir f.name
  | none => ""

/-- `shouldUpdateProfile` (main.go): `.ok true` is "proceed", `.ok false`
is "skip", `.error` aborts the run. -/
def shouldUpdateProfile (fs : GateFS) (profileDir : String)
    (newProfile : ProfileResponse) (forceUpdate : Bool) : Except GateErr Bool :=
  if forceUpdate then .ok true
  else
    match fs.profileStat with
    | .notExist => .ok true
    | .statFail => .error .statFailed
    | .found =>
      match fs.readDirRes with
      | .error _ => .error .readDirFailed
      | .ok files =>
        let profileFile := findProfileFile profileDir files
        if profileFile = "" then .ok true
        else
          match fs.readFileRes profileFile with
          | .error _ => .error .readFileFailed
          | .ok data =>
            match fs.unmarshalProfile data with
            | .error _ => .error .unmarshalFailed
            | .ok existingProfile =>
              if existingProfile.updated = newProfile.updated then .ok false
              else .ok true

/-- Per-post collaborator outcomes for `fetchAndSaveDetailedPosts`,
indexed by post id: the detail fetch (`fetchDetailedPost`) and the
metadata write (`savePost`).  The two download helpers always return
errors that the loop merely logs, so they do not influence control
flow. -/
structure ProcEnv where
  fetchDetail : String → Except Unit DetailedPostResponse
  savePostRes : String → Except Unit Unit

/-- Observable outcome of `fetchAndSaveDetailedPosts`: the returned
value, the ids whose detail fetch was attempted, the ids whose metadata
was persisted, and the ids for which the download phase ran. -/
structure ProcOut where
  result : Except Unit Unit
  fetched : List String
  saved : List String
  downloads : List String
deriving DecidableEq, Repr

/-- `fetchAndSaveDetailedPosts`: per-post processing with `continue` on
detail-fetch or save failure; download failures are logged only. -/
def fetchAndSaveDetailedPosts (env : ProcEnv) : List Post → Bool → ProcOut
  | [], _ => ⟨.ok (), [], [], []⟩
  | p :: rest, skipDownload =>
    let r := fetchAndSaveDetailedPosts env rest skipDownload
    match env.fetchDetail p.id with
    | .error _ => ⟨r.result, p.id :: r.fetched, r.saved, r.downloads⟩
    | .ok _ =>
      match env.savePostRes p.id with
      | .error _ => ⟨r.result, p.id :: r.fetched, r.saved, r.downloads⟩
      | .ok _ =>
        if skipDownload then
          ⟨r.result, p.id :: r.fetched, p.id :: r.saved, r.downloads⟩
        else
          ⟨r.result, p.id :: r.fetched, p.id :: r.saved, p.id :: r.downloads⟩

/-- Whether both the detail fetch and the metadata write succeed. -/
def detailOk (env : ProcEnv) (p : Post) : Bool :=
  (env.fetchDetail p.id).isOk && (env.savePostRes p.id).isOk

/-- Go `strings.Split` restricted to a one-character separator, on the
character list of the string. -/
def goSplit (c : Char) : List Char → List (List Char)
  | [] => [[]]
  | a :: rest =>
    if a = c then [] :: goSplit c rest
    else
      match goSplit c rest with
      | [] => [[a]]
      | s :: ss => (a :: s) :: ss

/-- Go `strings.Trim(s, "/")`: remove all leading and trailing slashes. -/
def trimSlashes (s : List Char) : List Char :=
  ((s.dropWhile fun a => a = '/').reverse.dropWhile fun a => a = '/').reverse

/-- The path-segment computation of `extractProfileConfig`:
`strings.Split(strings.Trim(strings.Split(path, "?")[0], "/"), "/")`. -/
def pathSegments (path : List Char) : List (List Char) :=
  goSplit '/' (trimSlashes ((goSplit '?' path).headD []))

/-- What `url.Parse` hands to `extractProfileConfig`: scheme, host and
path of the input URL, as character lists. -/
structure ParsedURL where
  scheme : List Char
  host : List Char
  path : List Char

/-- `ProfileConfig` (main.go), over character lists. -/
structure ProfileConfig where
  baseURL : List Char
  service : List Char
  userID : List Char
deriving DecidableEq, Repr

/-- `extractProfileConfig` (main.go) after `url.Parse`. -/
def extractProfileConfig (u : ParsedURL) : Except String ProfileConfig :=
  let pathParts := pathSegments u.path
  if pathParts.length < 3 ∨ pathParts[1]? ≠ some "user".toList then
    .error "URL does not match expected format"
  else
    let service := pathParts[0]?.getD []
    let userID := pathParts[2]?.getD []
    if service = [] ∨ userID = [] then .error "service or user ID is empty"
    else .ok ⟨u.scheme ++ "://".toList ++ u.host, service, userID⟩

/- ------------------------------------------------------------------ -/
/- Lemmas and claim theorems                                          -/
/- ------------------------------------------------------------------ -/

lemma fetchPostsPageGo_step429 (oracle : Nat → ApiResp) (left attempt : Nat)
    (b : BodyOutcome) (hor : oracle attempt = .status 429 b)
    (hlt : attempt < pageMaxRetries) :
    fetchPostsPageGo oracle (left + 1) attempt =
      ⟨(fetchPostsPageGo oracle left (attempt + 1)).result,
        2 ^ (attempt - 1) * initialBackoff ::
          (fetchPostsPageGo oracle left (attempt + 1)).sleeps,
        attempt :: (fetchPostsPageGo oracle left (attempt + 1)).requests⟩ := by
  simp [fetchPostsPageGo, hor, hlt]

lemma fetchPostsPageGo_step429_last (oracle : Nat → ApiResp) (left attempt : Nat)
    (b : BodyOutcome) (hor : oracle attempt = .status 429 b)
    (hge : ¬ attempt < pageMaxRetries) :
    fetchPostsPageGo oracle (left + 1) attempt = ⟨.error .rateLimited, [], [attempt]⟩ := by
  simp [fetchPostsPageGo, hor, hge]

lemma fetchPostsPageGo_step_ok (oracle : Nat → ApiResp) (left attempt : Nat)
    (ps : List Post) (hor : oracle attempt = .status 200 (.posts ps)) :
    fetchPostsPageGo oracle (left + 1) attempt = ⟨.ok ps, [], [attempt]⟩ := by
  simp [fetchPostsPageGo, hor]

lemma fetchPostsPageGo_requests_cons (oracle : Nat → ApiResp) (left attempt : Nat) :
    ∃ t, (fetchPostsPageGo oracle (left + 1) attempt).requests = attempt :: t := by
  cases hor : oracle attempt with
  | transport => exact ⟨[], by simp [fetchPostsPageGo, hor]⟩
  | status code body =>
    by_cases h429 : code = 429
    · by_cases hlt : attempt < pageMaxRetries
      · exact ⟨(fetchPostsPageGo oracle left (attempt + 1)).requests,
          by simp [fetchPostsPageGo, hor, h429, hlt]⟩
      · exact ⟨[], by simp [fetchPostsPageGo, hor, h429, hlt]⟩
    · by_cases h200 : code = 200
      · cases body with
        | readErr => exact ⟨[], by simp [fetchPostsPageGo, hor, h429, h200]⟩
        | parseErr => exact ⟨[], by simp [fetchPostsPageGo, hor, h429, h200]⟩
        | posts ps => exact ⟨[], by simp [fetchPostsPageGo, hor, h429, h200]⟩
      · exact ⟨[], by simp [fetchPostsPageGo, hor, h429, h200]⟩

/-- A response whose code is 429 is a `status 429` response. -/
lemma apiCode_eq_429 {r : ApiResp} (h : r.code = some 429) :
    ∃ b, r = .status 429 b := by
  cases r with
  | transport => simp [ApiResp.code] at h
  | status c b =>
    simp [ApiResp.code] at h
    exact ⟨b, by rw [h]⟩

/-- After `k ≤ 4` consecutive 429 responses the run is the run starting at
attempt `k+1`, preceded by the exponential-backoff sleeps and the first
`k` requests. -/
lemma fetchPostsPage_first429s (oracle : Nat → ApiResp) :
    ∀ k : Nat, k ≤ 4 →
    (∀ i : Fin k, (oracle (i.1 + 1)).code = some 429) →
    fetchPostsPage oracle =
      ⟨(fetchPostsPageGo oracle (pageMaxRetries - k) (k + 1)).result,
        ((List.range k).map fun i => 2 ^ i * initialBackoff) ++
          (fetchPostsPageGo oracle (pageMaxRetries - k) (k + 1)).sleeps,
        ((List.range k).map fun i => i + 1) ++
          (fetchPostsPageGo oracle (pageMaxRetries - k) (k + 1)).requests⟩ := by
  intro k
  induction k with
  | zero => intro _ _; simp [fetchPostsPage, pageMaxRetries]
  | succ k ih =>
    intro hk h429
    have hk4 : k ≤ 4 := by omega
    have ihh := ih hk4 (fun i => h429 ⟨i.1, by omega⟩)
    obtain ⟨b, hb⟩ := apiCode_eq_429 (h429 ⟨k, by omega⟩)
    have hfuel : pageMaxRetries - k = (pageMaxRetries - (k + 1)) + 1 := by
      simp [pageMaxRetries]; omega
    have hstep := fetchPostsPageGo_step429 oracle (pageMaxRetries - (k + 1)) (k + 1) b hb
      (by simp [pageMaxRetries]; omega)
    rw [hfuel] at ihh
    rw [ihh, hstep]
    simp [List.range_succ, Nat.add_sub_cancel]

/-- C1: whenever attempt `k < 5` observes HTTP 429 (which in a run
requires the earlier attempts to have observed 429 as well), the fetcher
sleeps `initialBackoff * 2^(k-1)` and then issues attempt `k+1`; five
consecutive 429 responses exhaust the budget with a rate-limit error;
and 429 twice followed by 200 succeeds on the 3rd attempt having slept
`initialBackoff` then `2*initialBackoff`. -/
theorem fetchPostsPage_backoff_spec :
    (∀ (oracle : Nat → ApiResp) (k : Nat), 1 ≤ k → k < 5 →
      (∀ i : Fin k, (oracle (i.1 + 1)).code = some 429) →
      (fetchPostsPage oracle).sleeps.take k =
          (List.range k).map (fun i => 2 ^ i * initialBackoff) ∧
        (k + 1) ∈ (fetchPostsPage oracle).requests)
  ∧ (∀ oracle : Nat → ApiResp,
      (∀ i : Fin 5, (oracle (i.1 + 1)).code = some 429) →
      (fetchPostsPage oracle).result = .error .rateLimited)
  ∧ (∀ (oracle : Nat → ApiResp) (ps : List Post),
      (oracle 1).code = some 429 → (oracle 2).code = some 429 →
      oracle 3 = .status 200 (.posts ps) →
      fetchPostsPage oracle =
        ⟨.ok ps, [initialBackoff, 2 * initialBackoff], [1, 2, 3]⟩) := by
  refine ⟨?_, ?_, ?_⟩
  · intro oracle k hk1 hk5 h429
    have h1 := fetchPostsPage_first429s oracle k (by omega) h429
    rw [h1]
    constructor
    · simp
    · have hfuel : pageMaxRetries - k = (pageMaxRetries - k - 1) + 1 := by
        simp only [pageMaxRetries]; omega
      obtain ⟨t, ht⟩ := fetchPostsPageGo_requests_cons oracle (pageMaxRetries - k - 1) (k + 1)
      rw [hfuel] at h1 ⊢
      simp [ht]
  · intro oracle h429
    have h1 := fetchPostsPage_first429s oracle 4 (by omega) (fun i => h429 ⟨i.1, by omega⟩)
    rw [h1]
    obtain ⟨b, hb⟩ := apiCode_eq_429 (h429 ⟨4, by omega⟩)
    have hstep := fetchPostsPageGo_step429_last oracle 0 5 b hb (by simp [pageMaxRetries])
    have hfuel : pageMaxRetries - 4 = 0 + 1 := by simp [pageMaxRetries]
    rw [hfuel, hstep]
  · intro oracle ps ho1 ho2 ho3
    have h429 : ∀ i : Fin 2, (oracle (i.1 + 1)).code = some 429 := by
      intro i
      fin_cases i
      · exact ho1
      · exact ho2
    have h1 := fetchPostsPage_first429s oracle 2 (by omega) h429
    have hstep := fetchPostsPageGo_step_ok oracle 2 3 ps ho3
    have hfuel : pageMaxRetries - 2 = 2 + 1 := by simp [pageMaxRetries]
    rw [hfuel] at h1
    rw [h1, hstep]
    norm_num [List.range_succ, initialBackoff]

theorem fetchPostsPage_backoff_spec_witness :
    ((fetchPostsPage c1oracle).sleeps.take 2 =
        (List.range 2).map (fun i => 2 ^ i * initialBackoff) ∧
      3 ∈ (fetchPostsPage c1oracle).requests) ∧
    (fetchPostsPage c1oracle429).result = .error .rateLimited ∧
    fetchPostsPage c1oracle = ⟨.ok [], [initialBackoff, 2 * initialBackoff], [1, 2, 3]⟩ :=
  ⟨fetchPostsPage_backoff_spec.1 c1oracle 2 (by decide) (by decide) (by decide),
   fetchPostsPage_backoff_spec.2.1 c1oracle429 (by decide),
   fetchPostsPage_backoff_spec.2.2 c1oracle [] rfl rfl rfl⟩

lemma retryPageGo_step_ok (fetch : Nat → Except FetchErr (List Post))
    (left attempt : Nat) (ps : List Post) (h : fetch attempt = .ok ps) :
    retryPageGo fetch (left + 1) attempt = ⟨.ok ps, 1, []⟩ := by
  simp [retryPageGo, h]

lemma retryPageGo_step_err (fetch : Nat → Except FetchErr (List Post))
    (left attempt : Nat) (e : FetchErr) (h : fetch attempt = .error e)
    (hlt : attempt < walkMaxRetries) :
    retryPageGo fetch (left + 1) attempt =
      ⟨(retryPageGo fetch left (attempt + 1)).result,
        (retryPageGo fetch left (attempt + 1)).attemptsMade + 1,
        pageRetryDelay :: (retryPageGo fetch left (attempt + 1)).sleeps⟩ := by
  simp [retryPageGo, h, hlt]

lemma retryPageGo_step_err_last (fetch : Nat → Except FetchErr (List Post))
    (left attempt : Nat) (e : FetchErr) (h : fetch attempt = .error e)
    (hge : ¬ attempt < walkMaxRetries) :
    retryPageGo fetch (left + 1) attempt = ⟨.error e, 1, []⟩ := by
  simp [retryPageGo, h, hge]

lemma retryPage_first_ok (fetch : Nat → Except FetchErr (List Post))
    (ps : List Post) (h : fetch 1 = .ok ps) :
    retryPage fetch = ⟨.ok ps, 1, []⟩ :=
  retryPageGo_step_ok fetch 2 1 ps h

lemma retryPage_all_err (fetch : Nat → Except FetchErr (List Post))
    (e1 e2 e3 : FetchErr) (h1 : fetch 1 = .error e1) (h2 : fetch 2 = .error e2)
    (h3 : fetch 3 = .error e3) :
    retryPage fetch = ⟨.error e3, 3, [pageRetryDelay, pageRetryDelay]⟩ := by
  have l3 : retryPageGo fetch 1 3 = ⟨.error e3, 1, []⟩ :=
    retryPageGo_step_err_last fetch 0 3 e3 h3 (by simp [walkMaxRetries])
  have l2 : retryPageGo fetch 2 2 = ⟨.error e3, 2, [pageRetryDelay]⟩ := by
    have h := retryPageGo_step_err fetch 1 2 e2 h2 (by simp [walkMaxRetries])
    have h23 : retryPageGo fetch 1 (2 + 1) = retryPageGo fetch 1 3 := rfl
    rw [h23, l3] at h
    exact h
  have h := retryPageGo_step_err fetch 2 1 e1 h1 (by simp [walkMaxRetries])
  have h12 : retryPageGo fetch 2 (1 + 1) = retryPageGo fetch 2 2 := rfl
  rw [h12, l2] at h
  exact h

lemma walkGo_step_fail (fetch : Nat → Nat → Except FetchErr (List Post))
    (fuel offset pn : Nat) (acc : List Post)
    (h : pageOk (retryPage (fetch offset)) = false) :
    walkGo fetch (fuel + 1) offset pn acc =
      ⟨.error (.pageFailed pn (pageErr (retryPage (fetch offset)))), [offset],
        [(retryPage (fetch offset)).attemptsMade]⟩ := by
  cases ht : (retryPage (fetch offset)).result with
  | ok ps => simp [pageOk, ht] at h
  | error e => simp [walkGo, pageErr, ht]

lemma walkGo_step_short (fetch : Nat → Nat → Except FetchErr (List Post))
    (fuel offset pn : Nat) (acc : List Post)
    (hok : pageOk (retryPage (fetch offset)) = true)
    (hlt : (pageItems (retryPage (fetch offset))).length < pageSize) :
    walkGo fetch (fuel + 1) offset pn acc =
      ⟨.ok (acc ++ pageItems (retryPage (fetch offset))), [offset],
        [(retryPage (fetch offset)).attemptsMade]⟩ := by
  cases ht : (retryPage (fetch offset)).result with
  | error e => simp [pageOk, ht] at hok
  | ok ps =>
    have hit : pageItems (retryPage (fetch offset)) = ps := by simp [pageItems, ht]
    rw [hit] at hlt ⊢
    by_cases hz : ps.length = 0
    · have : ps = [] := List.length_eq_zero.mp hz
      subst this
      simp [walkGo, ht]
    · simp [walkGo, ht, hz, hlt]

lemma walkGo_step_full (fetch : Nat → Nat → Except FetchErr (List Post))
    (fuel offset pn : Nat) (acc : List Post)
    (hok : pageOk (retryPage (fetch offset)) = true)
    (hlen : (pageItems (retryPage (fetch offset))).length = pageSize) :
    walkGo fetch (fuel + 1) offset pn acc =
      ⟨(walkGo fetch fuel (offset + pageSize) (pn + 1)
          (acc ++ pageItems (retryPage (fetch offset)))).result,
        offset :: (walkGo fetch fuel (offset + pageSize) (pn + 1)
          (acc ++ pageItems (retryPage (fetch offset)))).offsets,
        (retryPage (fetch offset)).attemptsMade ::
          (walkGo fetch fuel (offset + pageSize) (pn + 1)
            (acc ++ pageItems (retryPage (fetch offset)))).pageAttempts⟩ := by
  cases ht : (retryPage (fetch offset)).result with
  | error e => simp [pageOk, ht] at hok
  | ok ps =>
    have hit : pageItems (retryPage (fetch offset)) = ps := by simp [pageItems, ht]
    rw [hit] at hlen ⊢
    have hz : ¬ ps.length = 0 := by rw [hlen]; simp [pageSize]
    have hnlt : ¬ ps.length < pageSize := by rw [hlen]; simp
    simp [walkGo, ht, hz, hnlt]

/-- Stepping over `n` consecutive full (50-item) pages: the walk equals
the walk restarted after them, with the offsets, attempt counts and
items of those pages accumulated in front. -/
lemma walkGo_full_pages (fetch : Nat → Nat → Except FetchErr (List Post)) :
    ∀ (n : Nat), ∀ (fuel start pn : Nat) (acc : List Post), n ≤ fuel →
    (∀ i : Fin n, pageOk (retryPage (fetch (start + pageSize * i.1))) = true ∧
      (pageItems (retryPage (fetch (start + pageSize * i.1)))).length = pageSize) →
    walkGo fetch fuel start pn acc =
      ⟨(walkGo fetch (fuel - n) (start + pageSize * n) (pn + n)
          (acc ++ ((List.range n).map fun i =>
            pageItems (retryPage (fetch (start + pageSize * i)))).flatten)).result,
        ((List.range n).map fun i => start + pageSize * i) ++
          (walkGo fetch (fuel - n) (start + pageSize * n) (pn + n)
            (acc ++ ((List.range n).map fun i =>
              pageItems (retryPage (fetch (start + pageSize * i)))).flatten)).offsets,
        ((List.range n).map fun i =>
            (retryPage (fetch (start + pageSize * i))).attemptsMade) ++
          (walkGo fetch (fuel - n) (start + pageSize * n) (pn + n)
            (acc ++ ((List.range n).map fun i =>
              pageItems (retryPage (fetch (start + pageSize * i)))).flatten)).pageAttempts⟩ := by
  intro n
  induction n with
  | zero => intro fuel start pn acc _ _; simp
  | succ n ih =>
    intro fuel start pn acc hle hpages
    obtain ⟨f, rfl⟩ : ∃ f, fuel = f + 1 := ⟨fuel - 1, by omega⟩
    have h0 := hpages ⟨0, by omega⟩
    simp only [Nat.mul_zero, Nat.add_zero] at h0
    rw [walkGo_step_full fetch f start pn acc h0.1 h0.2]
    have ihh := ih f (start + pageSize) (pn + 1)
      (acc ++ pageItems (retryPage (fetch start))) (by omega)
      (fun i => by
        have hi := hpages ⟨i.1 + 1, by omega⟩
        have harith : start + pageSize * (i.1 + 1) =
            start + pageSize + pageSize * i.1 := by ring
        rwa [harith] at hi)
    rw [ihh]
    have harg : ∀ i : Nat,
        start + pageSize * (i + 1) = start + pageSize + pageSize * i := by
      intro i; ring
    have e1 : f + 1 - (n + 1) = f - n := by omega
    have e2 : start + pageSize * (n + 1) = start + pageSize + pageSize * n := by
      ring
    have e3 : pn + (n + 1) = pn + 1 + n := by omega
    rw [List.range_succ_eq_map]
    simp only [List.map_cons, List.map_map, Function.comp_def,
      Nat.succ_eq_add_one, List.flatten_cons, Nat.mul_zero, Nat.add_zero,
      harg, e1, e2, e3, List.append_assoc]
    rfl


/-- C2: with every page fetch succeeding, the walker requests pages at
offsets 0, 50, 100, ... in strictly increasing order, concatenates the
pages in order, and stops exactly at the first page with fewer than 50
items (an empty page included); three full pages then an empty page at
offset 150 yield exactly 150 items, and a last page of 23 items stops
pagination after offset 50. -/
theorem fetchPostsWithPagination_spec :
    (∀ (api : Nat → List Post) (n fuel : Nat), n < fuel →
      (∀ i : Fin n, (api (pageSize * i.1)).length = pageSize) →
      (api (pageSize * n)).length < pageSize →
      fetchPostsWithPagination
          (fun off _ => (.ok (api off) : Except FetchErr (List Post))) fuel =
        ⟨.ok (((List.range (n + 1)).map fun i => api (pageSize * i)).flatten),
          (List.range (n + 1)).map fun i => pageSize * i,
          List.replicate (n + 1) 1⟩ ∧
      List.Pairwise (· < ·) ((List.range (n + 1)).map fun i => pageSize * i))
  ∧ fetchPostsWithPagination
        (fun off _ => (.ok (api150 off) : Except FetchErr (List Post))) 5 =
      ⟨.ok (List.replicate 150 samplePost), [0, 50, 100, 150], [1, 1, 1, 1]⟩
  ∧ (List.replicate 150 samplePost).length = 150
  ∧ fetchPostsWithPagination
        (fun off _ => (.ok (api73 off) : Except FetchErr (List Post))) 5 =
      ⟨.ok (List.replicate 73 samplePost), [0, 50], [1, 1]⟩ := by
  refine ⟨?_, by rfl, by simp, by rfl⟩
  intro api n fuel hnf hfull hshort
  have hrp : ∀ off : Nat,
      retryPage (fun _ => (.ok (api off) : Except FetchErr (List Post))) =
        ⟨.ok (api off), 1, []⟩ :=
    fun off => retryPage_first_ok _ _ rfl
  refine ⟨?_, (List.pairwise_lt_range (n + 1)).map _
    (fun a b h => by simp only [pageSize]; omega)⟩
  have hwalk := walkGo_full_pages
    (fun off _ => (.ok (api off) : Except FetchErr (List Post))) n fuel 0 1 []
    (by omega)
    (fun i => by
      simp only [Nat.zero_add, hrp, pageOk, pageItems]
      exact ⟨trivial, hfull i⟩)
  obtain ⟨f, hf⟩ : ∃ f, fuel - n = f + 1 := ⟨fuel - n - 1, by omega⟩
  simp only [Nat.zero_add, List.nil_append, hf, hrp, pageItems] at hwalk
  have hstep := walkGo_step_short
    (fun off _ => (.ok (api off) : Except FetchErr (List Post))) f
    (pageSize * n) (1 + n)
    (((List.range n).map fun i => api (pageSize * i)).flatten)
    (by simp only [hrp, pageOk])
    (by simp only [hrp, pageItems]; exact hshort)
  simp only [hrp, pageItems] at hstep
  unfold fetchPostsWithPagination
  rw [hwalk, hstep]
  simp only [List.range_succ, List.map_append, List.map_cons, List.map_nil,
    List.flatten_append, List.flatten_cons, List.flatten_nil,
    List.append_nil, List.map_const', List.length_range, List.replicate_succ']

/-- API for the C2 witness: one full page then a short one. -/
def c2api : Nat → List Post := fun off =>
  if off = 0 then List.replicate 50 samplePost else List.replicate 7 samplePost

theorem fetchPostsWithPagination_spec_witness :
    fetchPostsWithPagination
        (fun off _ => (.ok (c2api off) : Except FetchErr (List Post))) 3 =
      ⟨.ok (((List.range 2).map fun i => c2api (pageSize * i)).flatten),
        (List.range 2).map fun i => pageSize * i,
        List.replicate 2 1⟩ ∧
    List.Pairwise (· < ·) ((List.range 2).map fun i => pageSize * i) :=
  fetchPostsWithPagination_spec.1 c2api 1 3 (by omega) (by decide) (by decide)

/-- C5: a page whose fetch fails on all 3 outer attempts is retried with
the fixed 2-second delay between attempts and reported with the last
error; when that happens on any page, the whole pagination returns an
error — the `Except` result carries no partial post list. -/
theorem fetchPostsWithPagination_retry_spec :
    (∀ (fetch : Nat → Except FetchErr (List Post)) (e1 e2 e3 : FetchErr),
      fetch 1 = .error e1 → fetch 2 = .error e2 → fetch 3 = .error e3 →
      retryPage fetch = ⟨.error e3, 3, [pageRetryDelay, pageRetryDelay]⟩)
  ∧ (∀ (fetch : Nat → Nat → Except FetchErr (List Post)) (n fuel : Nat),
      n < fuel →
      (∀ i : Fin n, pageOk (retryPage (fetch (pageSize * i.1))) = true ∧
        (pageItems (retryPage (fetch (pageSize * i.1)))).length = pageSize) →
      ∀ e1 e2 e3 : FetchErr, fetch (pageSize * n) 1 = .error e1 →
        fetch (pageSize * n) 2 = .error e2 →
        fetch (pageSize * n) 3 = .error e3 →
      fetchPostsWithPagination fetch fuel =
        ⟨.error (.pageFailed (1 + n) e3),
          (List.range (n + 1)).map fun i => pageSize * i,
          ((List.range n).map fun i =>
            (retryPage (fetch (pageSize * i))).attemptsMade) ++ [3]⟩) := by
  refine ⟨fun fetch e1 e2 e3 h1 h2 h3 =>
    retryPage_all_err fetch e1 e2 e3 h1 h2 h3, ?_⟩
  intro fetch n fuel hnf hfull e1 e2 e3 h1 h2 h3
  have hfailpage : retryPage (fetch (pageSize * n)) =
      ⟨.error e3, 3, [pageRetryDelay, pageRetryDelay]⟩ :=
    retryPage_all_err _ e1 e2 e3 h1 h2 h3
  have hwalk := walkGo_full_pages fetch n fuel 0 1 [] (by omega)
    (fun i => by rw [Nat.zero_add]; exact hfull i)
  obtain ⟨f, hf⟩ : ∃ f, fuel - n = f + 1 := ⟨fuel - n - 1, by omega⟩
  simp only [Nat.zero_add, List.nil_append, hf] at hwalk
  have hstep := walkGo_step_fail fetch f (pageSize * n) (1 + n)
    (((List.range n).map fun i => pageItems (retryPage (fetch (pageSize * i)))).flatten)
    (by simp only [hfailpage, pageOk])
  simp only [hfailpage, pageErr] at hstep
  unfold fetchPostsWithPagination
  rw [hwalk, hstep]
  simp only [List.range_succ, List.map_append, List.map_cons, List.map_nil,
    hfailpage]

theorem fetchPostsWithPagination_retry_spec_witness :
    retryPage (fun _ => .error .transport) =
      ⟨.error .transport, 3, [pageRetryDelay, pageRetryDelay]⟩ ∧
    fetchPostsWithPagination (fun _ _ => .error .transport) 1 =
      ⟨.error (.pageFailed 1 .transport),
        (List.range 1).map (fun i => pageSize * i), [3]⟩ := by
  constructor
  · exact fetchPostsWithPagination_retry_spec.1 (fun _ => .error .transport)
      .transport .transport .transport rfl rfl rfl
  · have h := fetchPostsWithPagination_retry_spec.2 (fun _ _ => .error .transport)
      0 1 (by omega) (fun i => i.elim0) .transport .transport .transport rfl rfl rfl
    simpa using h

/-- Case analysis on one download attempt: the run either ends in an
error with the disk unchanged, or in success with the output path added
in front of the files; either way at least one request is issued. -/
lemma downloadGo_cases (net : Nat → DlResp) (outputPath : String) :
    ∀ (fuel attempt : Nat) (files : List String),
    ((downloadGo net files outputPath fuel attempt).result = .ok () ∧
      (downloadGo net files outputPath fuel attempt).files = outputPath :: files ∧
      1 ≤ (downloadGo net files outputPath fuel attempt).requests) ∨
    ((∃ e, (downloadGo net files outputPath fuel attempt).result = .error e) ∧
      (downloadGo net files outputPath fuel attempt).files = files) := by
  intro fuel
  induction fuel with
  | zero =>
    intro attempt files
    exact .inr ⟨⟨.exhausted, rfl⟩, rfl⟩
  | succ left ih =>
    intro attempt files
    cases hn : net attempt with
    | transport =>
      exact .inr ⟨⟨.transport, by simp [downloadGo, hn]⟩, by simp [downloadGo, hn]⟩
    | status code stream =>
      by_cases h429 : code = 429
      · by_cases hlt : attempt < dlMaxRetries
        · have hrec := ih (attempt + 1) files
          rcases hrec with ⟨hres, hfiles, hreq⟩ | ⟨⟨e, hres⟩, hfiles⟩
          · exact .inl ⟨by simp [downloadGo, hn, h429, hlt, hres],
              by simp [downloadGo, hn, h429, hlt, hfiles],
              by simp [downloadGo, hn, h429, hlt]⟩
          · exact .inr ⟨⟨e, by simp [downloadGo, hn, h429, hlt, hres]⟩,
              by simp [downloadGo, hn, h429, hlt, hfiles]⟩
        · exact .inr ⟨⟨.rateLimited, by simp [downloadGo, hn, h429, hlt]⟩,
            by simp [downloadGo, hn, h429, hlt]⟩
      · by_cases h200 : code = 200
        · cases stream with
          | createErr =>
            exact .inr ⟨⟨.createFailed, by simp [downloadGo, hn, h429, h200]⟩,
              by simp [downloadGo, hn, h429, h200]⟩
          | copyErr =>
            exact .inr ⟨⟨.writeFailed, by simp [downloadGo, hn, h429, h200]⟩,
              by simp [downloadGo, hn, h429, h200]⟩
          | okBytes =>
            exact .inl ⟨by simp [downloadGo, hn, h429, h200],
              by simp [downloadGo, hn, h429, h200],
              by simp [downloadGo, hn, h429, h200]⟩
        · exact .inr ⟨⟨.badStatus code, by simp [downloadGo, hn, h429, h200]⟩,
            by simp [downloadGo, hn, h429, h200]⟩

/-- C4: a file already present at the destination makes the acquirer a
success-returning no-op with zero HTTP requests; a fresh successful
acquisition issues at least one request; and after any successful run,
re-running against the resulting disk state performs no request at all. -/
theorem downloadFileFromPath_skip_spec :
    (∀ (net : String → Nat → DlResp) (files : List String)
        (destDir fileName filePath baseURL : String),
      pathJoin destDir fileName ∈ files →
      downloadFileFromPath net files destDir fileName filePath baseURL =
        ⟨.ok (), files, 0, []⟩)
  ∧ (∀ (net : String → Nat → DlResp) (files : List String)
        (destDir fileName filePath baseURL : String),
      pathJoin destDir fileName ∉ files →
      (downloadFileFromPath net files destDir fileName filePath baseURL).result =
        .ok () →
      1 ≤ (downloadFileFromPath net files destDir fileName filePath baseURL).requests)
  ∧ (∀ (net net' : String → Nat → DlResp) (files : List String)
        (destDir fileName filePath baseURL : String),
      (downloadFileFromPath net files destDir fileName filePath baseURL).result =
        .ok () →
      downloadFileFromPath net'
          (downloadFileFromPath net files destDir fileName filePath baseURL).files
          destDir fileName filePath baseURL =
        ⟨.ok (),
          (downloadFileFromPath net files destDir fileName filePath baseURL).files,
          0, []⟩) := by
  refine ⟨?_, ?_, ?_⟩
  · intro net files destDir fileName filePath baseURL hmem
    simp [downloadFileFromPath, hmem]
  · intro net files destDir fileName filePath baseURL hmem hok
    rw [downloadFileFromPath] at hok ⊢
    rw [if_neg hmem] at hok ⊢
    rcases downloadGo_cases (net (baseURL ++ filePath)) (pathJoin destDir fileName)
      dlMaxRetries 1 files with ⟨_, _, hreq⟩ | ⟨⟨e, hres⟩, _⟩
    · exact hreq
    · rw [hres] at hok; exact absurd hok (by simp)
  · intro net net' files destDir fileName filePath baseURL hok
    by_cases hmem : pathJoin destDir fileName ∈ files
    · have hrun : downloadFileFromPath net files destDir fileName filePath baseURL =
          ⟨.ok (), files, 0, []⟩ := by simp [downloadFileFromPath, hmem]
      rw [hrun]
      simp [downloadFileFromPath, hmem]
    · rw [downloadFileFromPath, if_neg hmem] at hok
      rcases downloadGo_cases (net (baseURL ++ filePath)) (pathJoin destDir fileName)
        dlMaxRetries 1 files with ⟨_, hfiles, _⟩ | ⟨⟨e, hres⟩, _⟩
      · have hfiles' :
            (downloadFileFromPath net files destDir fileName filePath baseURL).files =
              pathJoin destDir fileName :: files := by
          rw [downloadFileFromPath, if_neg hmem]
          exact hfiles
        rw [hfiles']
        simp [downloadFileFromPath]
      · rw [hres] at hok
        exact absurd hok (by simp)

/-- Network oracle for the C4 witness: every attempt succeeds. -/
def netOk : String → Nat → DlResp := fun _ _ => .status 200 .okBytes

theorem downloadFileFromPath_skip_spec_witness :
    downloadFileFromPath netOk [pathJoin "d" "f"] "d" "f" "p" "b" =
      ⟨.ok (), [pathJoin "d" "f"], 0, []⟩ ∧
    1 ≤ (downloadFileFromPath netOk [] "d" "f" "p" "b").requests ∧
    downloadFileFromPath netOk
        (downloadFileFromPath netOk [] "d" "f" "p" "b").files "d" "f" "p" "b" =
      ⟨.ok (), (downloadFileFromPath netOk [] "d" "f" "p" "b").files, 0, []⟩ :=
  ⟨downloadFileFromPath_skip_spec.1 netOk [pathJoin "d" "f"] "d" "f" "p" "b"
      (List.mem_singleton.mpr rfl),
    downloadFileFromPath_skip_spec.2.1 netOk [] "d" "f" "p" "b"
      (by simp [pathJoin]) rfl,
    downloadFileFromPath_skip_spec.2.2 netOk netOk [] "d" "f" "p" "b" rfl⟩

/-- A download response whose code is 429 is a `status 429` response. -/
lemma dlCode_eq_429 {r : DlResp} (h : r.code = some 429) :
    ∃ s, r = .status 429 s := by
  cases r with
  | transport => simp [DlResp.code] at h
  | status c s =>
    simp [DlResp.code] at h
    exact ⟨s, by rw [h]⟩

lemma downloadGo_step429 (net : Nat → DlResp) (files : List String)
    (outputPath : String) (left attempt : Nat) (s : StreamOutcome)
    (hn : net attempt = .status 429 s) (hlt : attempt < dlMaxRetries) :
    downloadGo net files outputPath (left + 1) attempt =
      ⟨(downloadGo net files outputPath left (attempt + 1)).result,
        (downloadGo net files outputPath left (attempt + 1)).files,
        (downloadGo net files outputPath left (attempt + 1)).requests + 1,
        2 ^ (attempt - 1) * initialBackoff ::
          (downloadGo net files outputPath left (attempt + 1)).sleeps⟩ := by
  simp [downloadGo, hn, hlt]

lemma downloadGo_step429_last (net : Nat → DlResp) (files : List String)
    (outputPath : String) (left attempt : Nat) (s : StreamOutcome)
    (hn : net attempt = .status 429 s) (hge : ¬ attempt < dlMaxRetries) :
    downloadGo net files outputPath (left + 1) attempt =
      ⟨.error .rateLimited, files, 1, []⟩ := by
  simp [downloadGo, hn, hge]

/-- Five consecutive 429 responses: the loop exhausts its budget, sleeps
the four exponential backoffs, and leaves the disk unchanged. -/
lemma downloadGo_all429 (net : Nat → DlResp) (files : List String)
    (outputPath : String) (h : ∀ i : Fin 5, (net (i.1 + 1)).code = some 429) :
    downloadGo net files outputPath 5 1 =
      ⟨.error .rateLimited, files, 5,
        [initialBackoff, 2 * initialBackoff, 4 * initialBackoff,
          8 * initialBackoff]⟩ := by
  obtain ⟨s1, h1⟩ := dlCode_eq_429 (h ⟨0, by omega⟩)
  obtain ⟨s2, h2⟩ := dlCode_eq_429 (h ⟨1, by omega⟩)
  obtain ⟨s3, h3⟩ := dlCode_eq_429 (h ⟨2, by omega⟩)
  obtain ⟨s4, h4⟩ := dlCode_eq_429 (h ⟨3, by omega⟩)
  obtain ⟨s5, h5⟩ := dlCode_eq_429 (h ⟨4, by omega⟩)
  have l5 : downloadGo net files outputPath 1 5 =
      ⟨.error .rateLimited, files, 1, []⟩ :=
    downloadGo_step429_last net files outputPath 0 5 s5 h5
      (by simp [dlMaxRetries])
  have l4 : downloadGo net files outputPath 2 4 =
      ⟨.error .rateLimited, files, 2, [8 * initialBackoff]⟩ := by
    have hs := downloadGo_step429 net files outputPath 1 4 s4 h4
      (by simp [dlMaxRetries])
    have hc : downloadGo net files outputPath 1 (4 + 1) =
        downloadGo net files outputPath 1 5 := rfl
    rw [hc, l5] at hs
    rw [hs]
    norm_num
  have l3 : downloadGo net files outputPath 3 3 =
      ⟨.error .rateLimited, files, 3,
        [4 * initialBackoff, 8 * initialBackoff]⟩ := by
    have hs := downloadGo_step429 net files outputPath 2 3 s3 h3
      (by simp [dlMaxRetries])
    have hc : downloadGo net files outputPath 2 (3 + 1) =
        downloadGo net files outputPath 2 4 := rfl
    rw [hc, l4] at hs
    rw [hs]
    norm_num
  have l2 : downloadGo net files outputPath 4 2 =
      ⟨.error .rateLimited, files, 4,
        [2 * initialBackoff, 4 * initialBackoff, 8 * initialBackoff]⟩ := by
    have hs := downloadGo_step429 net files outputPath 3 2 s2 h2
      (by simp [dlMaxRetries])
    have hc : downloadGo net files outputPath 3 (2 + 1) =
        downloadGo net files outputPath 3 3 := rfl
    rw [hc, l3] at hs
    rw [hs]
    norm_num
  have hs := downloadGo_step429 net files outputPath 4 1 s1 h1
    (by simp [dlMaxRetries])
  have hc : downloadGo net files outputPath 4 (1 + 1) =
      downloadGo net files outputPath 4 2 := rfl
  rw [hc, l2] at hs
  rw [hs]
  norm_num

/-- C6: any failing acquisition leaves the disk exactly as it was (the
copy-failure branch deletes the partially written file), including the
case of five exhausted 429 attempts with their four backoff sleeps; a
successful fresh acquisition leaves exactly one file at the destination
path. -/
theorem downloadFileFromPath_cleanup_spec :
    (∀ (net : String → Nat → DlResp) (files : List String)
        (destDir fileName filePath baseURL : String) (e : DlErr),
      (downloadFileFromPath net files destDir fileName filePath baseURL).result =
        .error e →
      (downloadFileFromPath net files destDir fileName filePath baseURL).files =
        files)
  ∧ (∀ (net : String → Nat → DlResp) (files : List String)
        (destDir fileName filePath baseURL : String),
      pathJoin destDir fileName ∉ files →
      net (baseURL ++ filePath) 1 = .status 200 .copyErr →
      downloadFileFromPath net files destDir fileName filePath baseURL =
        ⟨.error .writeFailed, files, 1, []⟩)
  ∧ (∀ (net : String → Nat → DlResp) (files : List String)
        (destDir fileName filePath baseURL : String),
      pathJoin destDir fileName ∉ files →
      (∀ i : Fin 5, (net (baseURL ++ filePath) (i.1 + 1)).code = some 429) →
      downloadFileFromPath net files destDir fileName filePath baseURL =
        ⟨.error .rateLimited, files, 5,
          [initialBackoff, 2 * initialBackoff, 4 * initialBackoff,
            8 * initialBackoff]⟩)
  ∧ (∀ (net : String → Nat → DlResp) (files : List String)
        (destDir fileName filePath baseURL : String),
      pathJoin destDir fileName ∉ files →
      (downloadFileFromPath net files destDir fileName filePath baseURL).result =
        .ok () →
      (downloadFileFromPath net files destDir fileName filePath baseURL).files.count
        (pathJoin destDir fileName) = 1) := by
  refine ⟨?_, ?_, ?_, ?_⟩
  · intro net files destDir fileName filePath baseURL e herr
    by_cases hmem : pathJoin destDir fileName ∈ files
    · simp [downloadFileFromPath, hmem]
    · rw [downloadFileFromPath, if_neg hmem] at herr ⊢
      rcases downloadGo_cases (net (baseURL ++ filePath)) (pathJoin destDir fileName)
        dlMaxRetries 1 files with ⟨hres, _, _⟩ | ⟨_, hfiles⟩
      · rw [hres] at herr
        exact absurd herr (by simp)
      · exact hfiles
  · intro net files destDir fileName filePath baseURL hmem hn
    rw [downloadFileFromPath, if_neg hmem]
    show downloadGo (net (baseURL ++ filePath)) files (pathJoin destDir fileName)
      (4 + 1) 1 = _
    simp [downloadGo, hn]
  · intro net files destDir fileName filePath baseURL hmem h429
    rw [downloadFileFromPath, if_neg hmem]
    exact downloadGo_all429 (net (baseURL ++ filePath)) files
      (pathJoin destDir fileName) h429
  · intro net files destDir fileName filePath baseURL hmem hok
    rw [downloadFileFromPath, if_neg hmem] at hok ⊢
    rcases downloadGo_cases (net (baseURL ++ filePath)) (pathJoin destDir fileName)
      dlMaxRetries 1 files with ⟨_, hfiles, _⟩ | ⟨⟨e, hres⟩, _⟩
    · rw [hfiles, List.count_cons_self, List.count_eq_zero.mpr hmem]
    · rw [hres] at hok
      exact absurd hok (by simp)

/-- Network oracle for the C6 witness: a copy failure on the first
attempt. -/
def netCopyErr : String → Nat → DlResp := fun _ _ => .status 200 .copyErr

/-- Network oracle for the C6 witness: 429 on every attempt. -/
def net429 : String → Nat → DlResp := fun _ _ => .status 429 .okBytes

theorem downloadFileFromPath_cleanup_spec_witness :
    (downloadFileFromPath netCopyErr [] "d" "f" "p" "b").files = [] ∧
    downloadFileFromPath netCopyErr [] "d" "f" "p" "b" =
      ⟨.error .writeFailed, [], 1, []⟩ ∧
    downloadFileFromPath net429 [] "d" "f" "p" "b" =
      ⟨.error .rateLimited, [], 5,
        [initialBackoff, 2 * initialBackoff, 4 * initialBackoff,
          8 * initialBackoff]⟩ ∧
    (downloadFileFromPath netOk [] "d" "f" "p" "b").files.count
      (pathJoin "d" "f") = 1 :=
  ⟨downloadFileFromPath_cleanup_spec.1 netCopyErr [] "d" "f" "p" "b"
      .writeFailed rfl,
    downloadFileFromPath_cleanup_spec.2.1 netCopyErr [] "d" "f" "p" "b"
      (by simp) rfl,
    downloadFileFromPath_cleanup_spec.2.2.1 net429 [] "d" "f" "p" "b"
      (by simp) (by decide),
    downloadFileFromPath_cleanup_spec.2.2.2 netOk [] "d" "f" "p" "b"
      (by simp) rfl⟩

/-- Gate filesystem for the C3 counterexample: the profile directory
exists, a snapshot JSON file is found and read, but its contents fail to
parse. -/
def c3fsParseErr : GateFS where
  profileStat := .found
  readDirRes := .ok [⟨"profile.json", false⟩]
  readFileRes := fun _ => .ok "not json"
  unmarshalProfile := fun _ => .error ()

/-- A remote profile snapshot used in the C3 statements. -/
def c3profile : ProfileResponse :=
  ⟨"id1", "creator", "svc", "2024-01-01", "2024-06-01", "pub", none, 10, 0, 0, 0⟩

/-- The same snapshot with a different updated timestamp. -/
def c3profileNewer : ProfileResponse :=
  { c3profile with updated := "2024-07-01" }

/-- C3 counterexample: when the snapshot is present but fails to parse,
`shouldUpdateProfile` returns an error (which aborts the run in `main`),
not "proceed" as the claim states. -/
theorem shouldUpdateProfile_parse_error_cex :
    shouldUpdateProfile c3fsParseErr "dir" c3profile false =
      .error .unmarshalFailed ∧
    ¬ shouldUpdateProfile c3fsParseErr "dir" c3profile false = .ok true := by
  constructor
  · rfl
  · intro h
    rw [show shouldUpdateProfile c3fsParseErr "dir" c3profile false =
      .error .unmarshalFailed from rfl] at h
    exact Except.noConfusion h

/-- C3 (amended): the gate proceeds when forced, when the profile
directory does not exist, and when the directory has no snapshot JSON
file; with a readable, parseable snapshot it skips exactly when the
persisted updated timestamp equals the remote one and proceeds when they
differ; a snapshot that fails to parse yields an error (aborting the
run) instead of "proceed". -/
theorem shouldUpdateProfile_gate_spec :
    (∀ (fs : GateFS) (dir : String) (np : ProfileResponse),
      shouldUpdateProfile fs dir np true = .ok true)
  ∧ (∀ (fs : GateFS) (dir : String) (np : ProfileResponse),
      fs.profileStat = .notExist →
      shouldUpdateProfile fs dir np false = .ok true)
  ∧ (∀ (fs : GateFS) (dir : String) (np : ProfileResponse)
        (files : List DirEntry),
      fs.profileStat = .found → fs.readDirRes = .ok files →
      findProfileFile dir files = "" →
      shouldUpdateProfile fs dir np false = .ok true)
  ∧ (∀ (fs : GateFS) (dir : String) (np : ProfileResponse)
        (files : List DirEntry) (data : String) (existing : ProfileResponse),
      fs.profileStat = .found → fs.readDirRes = .ok files →
      findProfileFile dir files ≠ "" →
      fs.readFileRes (findProfileFile dir files) = .ok data →
      fs.unmarshalProfile data = .ok existing →
      existing.updated = np.updated →
      shouldUpdateProfile fs dir np false = .ok false)
  ∧ (∀ (fs : GateFS) (dir : String) (np : ProfileResponse)
        (files : List DirEntry) (data : String) (existing : ProfileResponse),
      fs.profileStat = .found → fs.readDirRes = .ok files →
      findProfileFile dir files ≠ "" →
      fs.readFileRes (findProfileFile dir files) = .ok data →
      fs.unmarshalProfile data = .ok existing →
      existing.updated ≠ np.updated →
      shouldUpdateProfile fs dir np false = .ok true)
  ∧ (∀ (fs : GateFS) (dir : String) (np : ProfileResponse)
        (files : List DirEntry) (data : String),
      fs.profileStat = .found → fs.readDirRes = .ok files →
      findProfileFile dir files ≠ "" →
      fs.readFileRes (findProfileFile dir files) = .ok data →
      fs.unmarshalProfile data = .error () →
      shouldUpdateProfile fs dir np false = .error .unmarshalFailed) := by
  refine ⟨?_, ?_, ?_, ?_, ?_, ?_⟩
  · intro fs dir np
    simp [shouldUpdateProfile]
  · intro fs dir np hstat
    simp [shouldUpdateProfile, hstat]
  · intro fs dir np files hstat hdir hfile
    simp [shouldUpdateProfile, hstat, hdir, hfile]
  · intro fs dir np files data existing hstat hdir hfile hread hum hupd
    simp [shouldUpdateProfile, hstat, hdir, hfile, hread, hum, hupd]
  · intro fs dir np files data existing hstat hdir hfile hread hum hupd
    simp [shouldUpdateProfile, hstat, hdir, hfile, hread, hum, hupd]
  · intro fs dir np files data hstat hdir hfile hread hum
    simp [shouldUpdateProfile, hstat, hdir, hfile, hread, hum]

/-- Gate filesystem for the C3 witness: snapshot parses to `c3profile`. -/
def c3fsParsed : GateFS where
  profileStat := .found
  readDirRes := .ok [⟨"creator.json", false⟩]
  readFileRes := fun _ => .ok "json"
  unmarshalProfile := fun _ => .ok c3profile

/-- Gate filesystem for the C3 witness: the directory does not exist. -/
def c3fsMissing : GateFS where
  profileStat := .notExist
  readDirRes := .error ()
  readFileRes := fun _ => .error ()
  unmarshalProfile := fun _ => .error ()

/-- Gate filesystem for the C3 witness: directory exists, no JSON file. -/
def c3fsNoJson : GateFS where
  profileStat := .found
  readDirRes := .ok [⟨"media.bin", false⟩, ⟨"sub", true⟩]
  readFileRes := fun _ => .error ()
  unmarshalProfile := fun _ => .error ()

theorem shouldUpdateProfile_gate_spec_witness :
    shouldUpdateProfile c3fsParseErr "dir" c3profile true = .ok true ∧
    shouldUpdateProfile c3fsMissing "dir" c3profile false = .ok true ∧
    shouldUpdateProfile c3fsNoJson "dir" c3profile false = .ok true ∧
    shouldUpdateProfile c3fsParsed "dir" c3profile false = .ok false ∧
    shouldUpdateProfile c3fsParsed "dir" c3profileNewer false = .ok true ∧
    shouldUpdateProfile c3fsParseErr "dir" c3profile false =
      .error .unmarshalFailed :=
  ⟨shouldUpdateProfile_gate_spec.1 c3fsParseErr "dir" c3profile,
    shouldUpdateProfile_gate_spec.2.1 c3fsMissing "dir" c3profile rfl,
    shouldUpdateProfile_gate_spec.2.2.1 c3fsNoJson "dir" c3profile
      [⟨"media.bin", false⟩, ⟨"sub", true⟩] rfl rfl (by decide),
    shouldUpdateProfile_gate_spec.2.2.2.1 c3fsParsed "dir" c3profile
      [⟨"creator.json", false⟩] "json" c3profile rfl rfl (by decide) rfl rfl rfl,
    shouldUpdateProfile_gate_spec.2.2.2.2.1 c3fsParsed "dir" c3profileNewer
      [⟨"creator.json", false⟩] "json" c3profile rfl rfl (by decide) rfl rfl
      (by decide),
    shouldUpdateProfile_gate_spec.2.2.2.2.2 c3fsParseErr "dir" c3profile
      [⟨"profile.json", false⟩] "not json" rfl rfl (by decide) rfl rfl⟩

/-- C7: appending a URL already present in the failure log returns
success leaving the log unchanged; appending a new URL appends it
exactly once at the end; and any sequence of appends starting from the
empty log yields a list without duplicates. -/
theorem appendFailedDownload_spec :
    (∀ (l : List String) (url : String), url ∈ l →
      AppendFailedDownload l url = l)
  ∧ (∀ (l : List String) (url : String), url ∉ l →
      AppendFailedDownload l url = l ++ [url] ∧
      (AppendFailedDownload l url).count url = l.count url + 1)
  ∧ (∀ urls : List String, (urls.foldl AppendFailedDownload []).Nodup) := by
  refine ⟨?_, ?_, ?_⟩
  · intro l url h
    simp [AppendFailedDownload, h]
  · intro l url h
    refine ⟨by simp [AppendFailedDownload, h], ?_⟩
    simp [AppendFailedDownload, h]
  · intro urls
    have hgen : ∀ (us : List String) (l : List String), l.Nodup →
        (us.foldl AppendFailedDownload l).Nodup := by
      intro us
      induction us with
      | nil => intro l hl; exact hl
      | cons u rest ih =>
        intro l hl
        refine ih (AppendFailedDownload l u) ?_
        by_cases hm : u ∈ l
        · simpa [AppendFailedDownload, hm] using hl
        · simp [AppendFailedDownload, hm, List.nodup_append, hl]
    exact hgen urls [] (by simp)

theorem appendFailedDownload_spec_witness :
    AppendFailedDownload ["u1", "u2"] "u1" = ["u1", "u2"] ∧
    AppendFailedDownload ["u1", "u2"] "u3" = ["u1", "u2", "u3"] ∧
    (["u1", "u2", "u1"].foldl AppendFailedDownload []).Nodup :=
  ⟨appendFailedDownload_spec.1 ["u1", "u2"] "u1" (by decide),
    (appendFailedDownload_spec.2.1 ["u1", "u2"] "u3" (by decide)).1,
    appendFailedDownload_spec.2.2 ["u1", "u2", "u1"]⟩

/-- C8: the batch routine never returns an error; it attempts the detail
fetch for every post in order; it persists exactly the posts whose
detail fetch and metadata write both succeed (failures skip the post and
the batch continues); and unless in metadata-only mode, the download
phase runs exactly for those persisted posts. -/
theorem fetchAndSaveDetailedPosts_spec :
    ∀ (env : ProcEnv) (posts : List Post) (skipDownload : Bool),
      (fetchAndSaveDetailedPosts env posts skipDownload).result = .ok () ∧
      (fetchAndSaveDetailedPosts env posts skipDownload).fetched =
        posts.map Post.id ∧
      (fetchAndSaveDetailedPosts env posts skipDownload).saved =
        (posts.filter (detailOk env)).map Post.id ∧
      (fetchAndSaveDetailedPosts env posts skipDownload).downloads =
        (if skipDownload then [] else (posts.filter (detailOk env)).map Post.id) := by
  intro env posts skipDownload
  induction posts with
  | nil => simp [fetchAndSaveDetailedPosts]
  | cons p rest ih =>
    obtain ⟨ihres, ihfetched, ihsaved, ihdl⟩ := ih
    cases hf : env.fetchDetail p.id with
    | error e =>
      have hok : detailOk env p = false := by
        simp [detailOk, hf, Except.isOk, Except.toBool]
      simp [fetchAndSaveDetailedPosts, hf, ihres, ihfetched, ihsaved, ihdl, hok]
    | ok d =>
      cases hs : env.savePostRes p.id with
      | error e =>
        have hok : detailOk env p = false := by
          simp [detailOk, hf, hs, Except.isOk, Except.toBool]
        simp [fetchAndSaveDetailedPosts, hf, hs, ihres, ihfetched, ihsaved,
          ihdl, hok]
      | ok u =>
        have hok : detailOk env p = true := by
          simp [detailOk, hf, hs, Except.isOk, Except.toBool]
        cases skipDownload with
        | true =>
          simp [fetchAndSaveDetailedPosts, hf, hs, ihres, ihfetched, ihsaved,
            ihdl, hok]
        | false =>
          simp [fetchAndSaveDetailedPosts, hf, hs, ihres, ihfetched, ihsaved,
            ihdl, hok]

/-- `filepath.Join(dir, "")` is `dir` (Join drops empty elements). -/
lemma pathJoin_empty (d : String) : pathJoin d "" = d := by
  by_cases h : d = "" <;> simp [pathJoin, h]

/-- Processing an attachment entry whose name is the empty string is a
no-op when the post directory already exists: the destination path
resolves to the directory itself and the existence check fires. -/
lemma downloadAttachmentsLoop_skip (net : String → Nat → DlResp)
    (postDir baseURL : String) (files : List String) (rest : List JVal)
    (p : String) (hmem : postDir ∈ files) :
    downloadAttachmentsLoop net postDir baseURL files
        (.obj [("name", .str ""), ("path", .str p)] :: rest) =
      downloadAttachmentsLoop net postDir baseURL files rest := by
  have hd : downloadFileFromPath net files postDir "" p baseURL =
      ⟨.ok (), files, 0, []⟩ := by
    simp [downloadFileFromPath, pathJoin_empty, hmem]
  have hstep : downloadAttachmentsLoop net postDir baseURL files
      (.obj [("name", .str ""), ("path", .str p)] :: rest) =
      ((downloadAttachmentsLoop net postDir baseURL
          (downloadFileFromPath net files postDir "" p baseURL).files rest).1,
        (downloadFileFromPath net files postDir "" p baseURL).requests +
          (downloadAttachmentsLoop net postDir baseURL
            (downloadFileFromPath net files postDir "" p baseURL).files rest).2) :=
    rfl
  rw [hstep, hd]
  simp

/-- Every iteration of the download loop issues at least one request. -/
lemma downloadGo_pos (net : Nat → DlResp) (files : List String)
    (outputPath : String) (left attempt : Nat) :
    1 ≤ (downloadGo net files outputPath (left + 1) attempt).requests := by
  cases hn : net attempt with
  | transport => simp [downloadGo, hn]
  | status code stream =>
    by_cases h429 : code = 429
    · by_cases hlt : attempt < dlMaxRetries
      · simp [downloadGo, hn, h429, hlt]
      · simp [downloadGo, hn, h429, hlt]
    · by_cases h200 : code = 200
      · cases stream <;> simp [downloadGo, hn, h429, h200]
      · simp [downloadGo, hn, h429, h200]

/-- C10: an attachment entry whose "name" extracts to the empty string
joins to the post directory itself; since that directory exists (it was
created when the post metadata was saved), the existence check succeeds
and the entry is silently treated as already downloaded — success, no
HTTP request, no disk change — at any position of the attachment list.
If the directory did not exist, at least one request would be issued.
A post's primary file with an empty name is instead rejected before
`downloadFileFromPath` is consulted, regardless of the disk state. -/
theorem emptyAttachmentName_spec :
    (∀ d : String, pathJoin d "" = d)
  ∧ (∀ (net : String → Nat → DlResp) (postDir baseURL : String)
        (files : List String) (rest : List JVal) (p : String),
      postDir ∈ files →
      downloadAttachmentsLoop net postDir baseURL files
          (.obj [("name", .str ""), ("path", .str p)] :: rest) =
        downloadAttachmentsLoop net postDir baseURL files rest)
  ∧ (∀ (net : String → Nat → DlResp) (files : List String)
        (baseDir service userID postID baseURL p : String),
      pathJoin (pathJoin (pathJoin baseDir service) userID) postID ∈ files →
      downloadPostAttachments net files baseDir service userID postID
          ⟨[("attachments", .arr [.obj [("name", .str ""), ("path", .str p)]])],
            [], [], [], []⟩ baseURL =
        ⟨.ok (), files, 0⟩)
  ∧ (∀ (net : String → Nat → DlResp) (files : List String)
        (baseDir service userID postID baseURL p : String),
      pathJoin (pathJoin (pathJoin baseDir service) userID) postID ∉ files →
      1 ≤ (downloadPostAttachments net files baseDir service userID postID
          ⟨[("attachments", .arr [.obj [("name", .str ""), ("path", .str p)]])],
            [], [], [], []⟩ baseURL).requests)
  ∧ (∀ (net : String → Nat → DlResp) (files : List String)
        (baseDir service userID postID baseURL p : String),
      downloadPostFile net files baseDir service userID postID
          ⟨[("file", .obj [("name", .str ""), ("path", .str p)])],
            [], [], [], []⟩ baseURL =
        ⟨.ok (), files, 0⟩) := by
  refine ⟨pathJoin_empty, downloadAttachmentsLoop_skip, ?_, ?_, ?_⟩
  · intro net files baseDir service userID postID baseURL p hmem
    have hstep : downloadPostAttachments net files baseDir service userID postID
        ⟨[("attachments", .arr [.obj [("name", .str ""), ("path", .str p)]])],
          [], [], [], []⟩ baseURL =
        ⟨.ok (),
          (downloadAttachmentsLoop net
            (pathJoin (pathJoin (pathJoin baseDir service) userID) postID)
            baseURL files [.obj [("name", .str ""), ("path", .str p)]]).1,
          (downloadAttachmentsLoop net
            (pathJoin (pathJoin (pathJoin baseDir service) userID) postID)
            baseURL files [.obj [("name", .str ""), ("path", .str p)]]).2⟩ := rfl
    rw [hstep, downloadAttachmentsLoop_skip net _ baseURL files [] p hmem]
    rfl
  · intro net files baseDir service userID postID baseURL p hmem
    have hstep : (downloadPostAttachments net files baseDir service userID postID
        ⟨[("attachments", .arr [.obj [("name", .str ""), ("path", .str p)]])],
          [], [], [], []⟩ baseURL).requests =
        (downloadFileFromPath net files
            (pathJoin (pathJoin (pathJoin baseDir service) userID) postID)
            "" p baseURL).requests +
          (downloadAttachmentsLoop net
            (pathJoin (pathJoin (pathJoin baseDir service) userID) postID)
            baseURL (downloadFileFromPath net files
              (pathJoin (pathJoin (pathJoin baseDir service) userID) postID)
              "" p baseURL).files []).2 := rfl
    rw [hstep]
    have hd : downloadFileFromPath net files
        (pathJoin (pathJoin (pathJoin baseDir service) userID) postID)
        "" p baseURL =
        downloadGo (net (baseURL ++ p)) files
          (pathJoin (pathJoin (pathJoin baseDir service) userID) postID)
          dlMaxRetries 1 := by
      simp [downloadFileFromPath, pathJoin_empty, hmem]
    rw [hd]
    have hpos : 1 ≤ (downloadGo (net (baseURL ++ p)) files
        (pathJoin (pathJoin (pathJoin baseDir service) userID) postID)
        dlMaxRetries 1).requests :=
      downloadGo_pos (net (baseURL ++ p)) files
        (pathJoin (pathJoin (pathJoin baseDir service) userID) postID) 4 1
    omega
  · intro net files baseDir service userID postID baseURL p
    rfl

theorem emptyAttachmentName_spec_witness :
    downloadPostAttachments netOk
        [pathJoin (pathJoin (pathJoin "a" "b") "c") "d"] "a" "b" "c" "d"
        ⟨[("attachments", .arr [.obj [("name", .str ""), ("path", .str "x")]])],
          [], [], [], []⟩ "https://h" =
      ⟨.ok (), [pathJoin (pathJoin (pathJoin "a" "b") "c") "d"], 0⟩ ∧
    1 ≤ (downloadPostAttachments netOk [] "a" "b" "c" "d"
        ⟨[("attachments", .arr [.obj [("name", .str ""), ("path", .str "x")]])],
          [], [], [], []⟩ "https://h").requests ∧
    downloadPostFile netOk [] "a" "b" "c" "d"
        ⟨[("file", .obj [("name", .str ""), ("path", .str "x")])],
          [], [], [], []⟩ "https://h" =
      ⟨.ok (), [], 0⟩ :=
  ⟨emptyAttachmentName_spec.2.2.1 netOk
      [pathJoin (pathJoin (pathJoin "a" "b") "c") "d"] "a" "b" "c" "d"
      "https://h" "x" (List.mem_singleton.mpr rfl),
    emptyAttachmentName_spec.2.2.2.1 netOk [] "a" "b" "c" "d" "https://h" "x"
      (by simp),
    emptyAttachmentName_spec.2.2.2.2 netOk [] "a" "b" "c" "d" "https://h" "x"⟩

lemma goSplit_not_mem (c : Char) : ∀ l : List Char, c ∉ l → goSplit c l = [l] := by
  intro l
  induction l with
  | nil => intro _; rfl
  | cons a rest ih =>
    intro h
    by_cases hac : a = c
    · subst hac
      exact absurd (List.mem_cons_self a rest) h
    · have hrest : c ∉ rest := fun hc => h (List.mem_cons_of_mem a hc)
      simp [goSplit, hac, ih hrest]

lemma goSplit_append (c : Char) : ∀ (s t : List Char), c ∉ s →
    goSplit c (s ++ c :: t) = s :: goSplit c t := by
  intro s
  induction s with
  | nil => intro t _; simp [goSplit]
  | cons a s' ih =>
    intro t h
    by_cases hac : a = c
    · subst hac
      exact absurd (List.mem_cons_self a s') h
    · have hs' : c ∉ s' := fun hc => h (List.mem_cons_of_mem a hc)
      simp [goSplit, hac, ih t hs']

/-- Trimming slashes from a canonical profile path removes exactly the
leading slash: the body starts with the service's first character and
ends with the id's last character, neither of which is a slash. -/
lemma trimSlashes_canonical (s0 : Char) (st mid id : List Char)
    (r0 : Char) (rr : List Char) (hs0 : ¬ s0 = '/')
    (hr : id.reverse = r0 :: rr) (hr0 : ¬ r0 = '/') :
    trimSlashes ('/' :: (s0 :: st ++ '/' :: (mid ++ '/' :: id))) =
      s0 :: st ++ '/' :: (mid ++ '/' :: id) := by
  have hA : ('/' :: (s0 :: st ++ '/' :: (mid ++ '/' :: id))).dropWhile
      (fun a => a = '/') = s0 :: st ++ '/' :: (mid ++ '/' :: id) := by
    simp [List.dropWhile_cons, hs0]
  have hshape : s0 :: st ++ '/' :: (mid ++ '/' :: id) =
      (s0 :: st ++ '/' :: mid ++ ['/']) ++ id := by
    simp
  have hB : ((s0 :: st ++ '/' :: mid ++ ['/']) ++ id).reverse.dropWhile
      (fun a => a = '/') =
      ((s0 :: st ++ '/' :: mid ++ ['/']) ++ id).reverse := by
    rw [List.reverse_append, hr]
    simp [List.dropWhile_cons, hr0]
  unfold trimSlashes
  rw [hA, hshape, hB, List.reverse_reverse]

/-- The segment computation on a canonical profile path yields exactly
the three expected segments. -/
lemma pathSegments_canonical (service id : List Char)
    (hs : service ≠ []) (hid : id ≠ [])
    (hss : '/' ∉ service) (hidid : '/' ∉ id)
    (hqs : '?' ∉ service) (hqid : '?' ∉ id) :
    pathSegments ('/' :: (service ++ '/' :: ("user".toList ++ '/' :: id))) =
      [service, "user".toList, id] := by
  obtain ⟨s0, st, rfl⟩ := List.exists_cons_of_ne_nil hs
  obtain ⟨r0, rr, hr⟩ := List.exists_cons_of_ne_nil
    (show id.reverse ≠ [] by simpa using hid)
  have hs0 : ¬ s0 = '/' := fun h => hss (by rw [h]; exact List.mem_cons_self _ _)
  have hr0mem : r0 ∈ id := by
    have h1 : r0 ∈ id.reverse := by rw [hr]; exact List.mem_cons_self _ _
    exact List.mem_reverse.mp h1
  have hr0 : ¬ r0 = '/' := fun h => hidid (h ▸ hr0mem)
  have hq : '?' ∉ '/' :: (s0 :: st ++ '/' :: ("user".toList ++ '/' :: id)) := by
    intro hmem
    rcases List.mem_cons.mp hmem with h | hmem2
    · exact absurd h (by decide)
    rcases List.mem_append.mp hmem2 with h | hmem3
    · exact hqs h
    rcases List.mem_cons.mp hmem3 with h | hmem4
    · exact absurd h (by decide)
    rcases List.mem_append.mp hmem4 with h | hmem5
    · exact absurd h (by decide)
    rcases List.mem_cons.mp hmem5 with h | h
    · exact absurd h (by decide)
    · exact hqid h
  unfold pathSegments
  rw [goSplit_not_mem '?' _ hq]
  simp only [List.headD_cons]
  rw [trimSlashes_canonical s0 st "user".toList id r0 rr hs0 hr hr0]
  rw [goSplit_append '/' (s0 :: st) _ hss]
  rw [goSplit_append '/' "user".toList _ (by decide)]
  rw [goSplit_not_mem '/' id hidid]

/-- C9 counterexample input: the path `/svc/user/42/extra` is not of the
form `/\x7bservice\x7d/user/\x7bid\x7d` (it has a fourth segment), yet
the parser accepts it. -/
def c9url : ParsedURL :=
  ⟨"https".toList, "example.com".toList, "/svc/user/42/extra".toList⟩

/-- C9 counterexample: a URL whose path has an extra trailing segment is
accepted (the segment is ignored), contradicting the claim that every
URL whose path has any shape other than the canonical one fails with a
format error. -/
theorem extractProfileConfig_extra_segments_cex :
    extractProfileConfig c9url =
      .ok ⟨"https://example.com".toList, "svc".toList, "42".toList⟩ := by
  decide

/-- C9 (amended): every canonical profile URL parses to exactly
\x7bbaseURL = scheme://host, service, id\x7d, and the parser fails with
a format error precisely when the trimmed path has fewer than 3
segments, its second segment is not "user", or its first or third
segment is empty — extra segments beyond the third are accepted and
ignored rather than rejected. -/
theorem extractProfileConfig_spec :
    (∀ (scheme host service id : List Char),
      service ≠ [] → id ≠ [] → '/' ∉ service → '/' ∉ id →
      '?' ∉ service → '?' ∉ id →
      extractProfileConfig ⟨scheme, host,
          '/' :: (service ++ '/' :: ("user".toList ++ '/' :: id))⟩ =
        .ok ⟨scheme ++ "://".toList ++ host, service, id⟩)
  ∧ (∀ u : ParsedURL, (∃ msg, extractProfileConfig u = .error msg) ↔
      ((pathSegments u.path).length < 3 ∨
        (pathSegments u.path)[1]? ≠ some "user".toList ∨
        (pathSegments u.path)[0]?.getD [] = [] ∨
        (pathSegments u.path)[2]?.getD [] = [])) := by
  constructor
  · intro scheme host service id hs hid hss hidid hqs hqid
    have hseg := pathSegments_canonical service id hs hid hss hidid hqs hqid
    have hunf : extractProfileConfig ⟨scheme, host,
        '/' :: (service ++ '/' :: ("user".toList ++ '/' :: id))⟩ =
        (if (pathSegments ('/' :: (service ++ '/' ::
              ("user".toList ++ '/' :: id)))).length < 3 ∨
            (pathSegments ('/' :: (service ++ '/' ::
              ("user".toList ++ '/' :: id))))[1]? ≠ some "user".toList then
          .error "URL does not match expected format"
        else if (pathSegments ('/' :: (service ++ '/' ::
              ("user".toList ++ '/' :: id))))[0]?.getD [] = [] ∨
            (pathSegments ('/' :: (service ++ '/' ::
              ("user".toList ++ '/' :: id))))[2]?.getD [] = [] then
          .error "service or user ID is empty"
        else .ok ⟨scheme ++ "://".toList ++ host,
          (pathSegments ('/' :: (service ++ '/' ::
            ("user".toList ++ '/' :: id))))[0]?.getD [],
          (pathSegments ('/' :: (service ++ '/' ::
            ("user".toList ++ '/' :: id))))[2]?.getD []⟩) := rfl
    rw [hunf, hseg]
    simp [hs, hid]
  · intro u
    have hunf : extractProfileConfig u =
        (if (pathSegments u.path).length < 3 ∨
            (pathSegments u.path)[1]? ≠ some "user".toList then
          .error "URL does not match expected format"
        else if (pathSegments u.path)[0]?.getD [] = [] ∨
            (pathSegments u.path)[2]?.getD [] = [] then
          .error "service or user ID is empty"
        else .ok ⟨u.scheme ++ "://".toList ++ u.host,
          (pathSegments u.path)[0]?.getD [],
          (pathSegments u.path)[2]?.getD []⟩) := rfl
    rw [hunf]
    by_cases h1 : (pathSegments u.path).length < 3 ∨
        (pathSegments u.path)[1]? ≠ some "user".toList
    · rw [if_pos h1]
      constructor
      · intro _
        rcases h1 with h | h
        · exact .inl h
        · exact .inr (.inl h)
      · intro _
        exact ⟨_, rfl⟩
    · rw [if_neg h1]
      by_cases h2 : (pathSegments u.path)[0]?.getD [] = [] ∨
          (pathSegments u.path)[2]?.getD [] = []
      · rw [if_pos h2]
        constructor
        · intro _
          rcases h2 with h | h
          · exact .inr (.inr (.inl h))
          · exact .inr (.inr (.inr h))
        · intro _
          exact ⟨_, rfl⟩
      · rw [if_neg h2]
        constructor
        · rintro ⟨msg, hmsg⟩
          exact absurd hmsg (by simp)
        · intro h
          push_neg at h1 h2
          rcases h with h | h | h | h
          · exact absurd h (by omega)
          · exact absurd h (by simp [h1.2])
          · exact absurd h h2.1
          · exact absurd h h2.2

theorem extractProfileConfig_spec_witness :
    extractProfileConfig ⟨"https".toList, "example.com".toList,
        '/' :: ("svc".toList ++ '/' :: ("user".toList ++ '/' :: "42".toList))⟩ =
      .ok ⟨"https".toList ++ "://".toList ++ "example.com".toList,
        "svc".toList, "42".toList⟩ :=
  extractProfileConfig_spec.1 "https".toList "example.com".toList
    "svc".toList "42".toList (by decide) (by decide) (by decide) (by decide)
    (by decide) (by decide)
